import Mathlib

/-!
Verification of the go-canvas core (`src/main.go`): the canvas record,
validator, undo/redo history, save/load persistence, version store with
autosave, and the PDF layout geometry.

Shallow embedding conventions:
* Go strings become Lean `String`; Go `len(s)` on a string is the UTF-8
  byte count, embedded as `String.utf8ByteSize`.
* The fyne widget texts form the live record; the record of the nine
  `.Text` fields (as built by `getCurrentData`) is `CanvasData`.
* Stacks are Go slices pushed/popped at the tail, embedded as lists with
  push `l ++ [x]`, top `l.getLast?`, pop `l.dropLast`.
-/

/-- The nine-field canvas record, mirroring `CanvasData` in `main.go`
(its JSON keys appear in `marshalFields`). It is also the snapshot type
of getCurrentData: the nine widget `.Text` values. -/
structure CanvasData where
  keyPartners      : String
  keyActivities    : String
  keyResources     : String
  valueProposition : String
  customerRel      : String
  channels         : String
  customerSegments : String
  costStructure    : String
  revenueStreams   : String
deriving DecidableEq, Repr

/-- A validation rule, mirroring `ValidationRule`: section name, check
predicate over the current record, and message.  The Go checks read the
widget texts; here they read the corresponding `CanvasData` fields. -/
structure ValidationRule where
  Section : String
  Check   : CanvasData → Bool
  Message : String

/-- Mirrors `ValidationResult`. -/
structure ValidationResult where
  Section : String
  Message : String
deriving DecidableEq, Repr

/-- The fixed rule list built by `NewBusinessValidator` in `main.go`,
in declaration order.  Go `len` on a string counts bytes, hence
`String.utf8ByteSize`. -/
def NewBusinessValidator : List ValidationRule :=
  [ { Section := "Value Proposition"
      Check := fun c => c.valueProposition.utf8ByteSize ≥ 100
      Message := "Consider adding more detail about your value proposition" },
    { Section := "Customer Segments"
      Check := fun c => c.customerSegments.utf8ByteSize ≥ 50
      Message := "Customer segments need more specific details" },
    { Section := "Key Activities"
      Check := fun c => c.keyActivities.utf8ByteSize ≥ 50
      Message := "Add more details about your key activities" },
    { Section := "Cost Structure"
      Check := fun c => c.costStructure.utf8ByteSize ≥ 50
      Message := "Elaborate on your cost structure" },
    { Section := "Revenue Streams"
      Check := fun c => c.revenueStreams.utf8ByteSize ≥ 50
      Message := "Provide more information about revenue streams" } ]

/-- Mirrors `BusinessValidator.Validate`: walk the rules in order and
emit one result per failing rule. -/
def Validate (rules : List ValidationRule) (c : CanvasData) : List ValidationResult :=
  match rules with
  | [] => []
  | r :: rs =>
      if r.Check c then Validate rs c
      else ⟨r.Section, r.Message⟩ :: Validate rs c

/-- The all-empty record (fresh canvas). -/
def emptyCanvas : CanvasData :=
  ⟨"", "", "", "", "", "", "", "", ""⟩

example :
    Validate NewBusinessValidator emptyCanvas =
      [ ⟨"Value Proposition", "Consider adding more detail about your value proposition"⟩,
        ⟨"Customer Segments", "Customer segments need more specific details"⟩,
        ⟨"Key Activities", "Add more details about your key activities"⟩,
        ⟨"Cost Structure", "Elaborate on your cost structure"⟩,
        ⟨"Revenue Streams", "Provide more information about revenue streams"⟩ ] := by
  decide

example : ("éé" : String).utf8ByteSize = 4 := by decide

example : ((831 : ℚ) / 5 ≤ 277) := by norm_num

example : ("éé" : String).length = 2 := by decide

/-- Mirrors `Comment` (present in the data model, unused by any feature). -/
structure Comment where
  ID        : String
  Section   : String
  Text      : String
  Author    : String
  Timestamp : Nat
deriving DecidableEq, Repr

/-- Mirrors `Version`: a snapshot in the version store.  `uuid.New()` is
an external fresh-identifier supply; it is embedded as a `Nat` drawn from
the session's `nextId` counter (a monotonic generator, one of the two
generation schemes the spec admits for process-lifetime uniqueness).
`time.Now()` timestamps are abstract `Nat` instants supplied to each
operation. -/
structure Version where
  ID        : Nat
  Timestamp : Nat
  Data      : CanvasData
  Comments  : List Comment
deriving DecidableEq, Repr

/-- The state-bearing part of the `Canvas` struct in `main.go`: the nine
widget texts collapsed into the live `CanvasData` (what `getCurrentData`
reads and `SetText` writes), the autosave flag, the `lastSaved` instant,
the two history stacks, the version list, and the fresh-id supply for
`uuid.New()`.  Widgets, theme, progress bar and windows are UI plumbing
with no bearing on the claims. -/
structure Canvas where
  live      : CanvasData
  autoSave  : Bool
  lastSaved : Nat
  undoStack : List CanvasData
  redoStack : List CanvasData
  versions  : List Version
  nextId    : Nat
deriving DecidableEq, Repr

/-- Mirrors `getCurrentData`: the snapshot of the nine widget texts. -/
def Canvas.getCurrentData (c : Canvas) : CanvasData := c.live

/-- Mirrors `Canvas.undo`: if the undo stack is non-empty, push the
current snapshot onto the redo stack, pop the last element of the undo
stack and install it (the nine `SetText` calls) as the live state. -/
def Canvas.undo (c : Canvas) : Canvas :=
  match c.undoStack.getLast? with
  | none => c
  | some lastState =>
      { c with
        redoStack := c.redoStack ++ [c.getCurrentData]
        undoStack := c.undoStack.dropLast
        live := lastState }

/-- Mirrors `Canvas.redo`, symmetric to `undo`. -/
def Canvas.redo (c : Canvas) : Canvas :=
  match c.redoStack.getLast? with
  | none => c
  | some lastState =>
      { c with
        undoStack := c.undoStack ++ [c.getCurrentData]
        redoStack := c.redoStack.dropLast
        live := lastState }

/-- A user edit: typing into one of the nine entries changes only that
widget's `.Text`, i.e. only the live record; no handler in `main.go`
touches the stacks on edit (`OnChanged` only recolors the section). -/
def Canvas.applyEdit (c : Canvas) (d : CanvasData) : Canvas :=
  { c with live := d }

/-- The JSON object produced by `json.MarshalIndent` on `CanvasData`:
the nine key/value pairs in struct-tag order.  The byte-level rendering
performed by `encoding/json` is a faithful injective encoding of this
object and is external library code, so the codec is embedded at the
key/value level. -/
def marshalFields (d : CanvasData) : List (String × String) :=
  [ ("keyPartners", d.keyPartners),
    ("keyActivities", d.keyActivities),
    ("keyResources", d.keyResources),
    ("valueProposition", d.valueProposition),
    ("customerRelationships", d.customerRel),
    ("channels", d.channels),
    ("customerSegments", d.customerSegments),
    ("costStructure", d.costStructure),
    ("revenueStreams", d.revenueStreams) ]

/-- One rune of the name folding `json.Unmarshal` uses to match incoming
object keys to struct tags (`bytes.EqualFold`, i.e. Unicode simple case
folding), specialized to comparison against the nine ASCII tags: ASCII
letters fold case-insensitively, and the only two non-ASCII runes whose
fold orbits reach ASCII — KELVIN SIGN U+212A (folds with `k`) and LATIN
SMALL LETTER LONG S U+017F (folds with `s`) — fold to those letters; any
other rune folds within non-ASCII and so can never equal a tag rune. -/
def foldChar (c : Char) : Char :=
  if c.toNat = 0x212A then 'k'
  else if c.toNat = 0x017F then 's'
  else c.toLower

/-- The folded form of a JSON object key (rune-by-rune `foldChar`): two
keys are matched by `json.Unmarshal`'s case-insensitive tag matching iff
their folded forms are equal (for comparisons against the ASCII struct
tags). -/
def foldName (s : String) : String := ⟨s.data.map foldChar⟩

/-- `encoding/json` object-field lookup as `json.Unmarshal` performs it
into a string field: an incoming key is matched to the field's tag
case-insensitively (exact matches and case-variants alike assign the
field), the last matching binding wins, and a missing key leaves the
zero value `""`. -/
def jsonGet (kvs : List (String × String)) (k : String) : String :=
  kvs.foldl (fun acc p => if foldName p.1 = foldName k then p.2 else acc) ""

/-- `json.Unmarshal` into `CanvasData`: each tagged field is filled from
the keys matching its tag (case-insensitively, per `jsonGet`); keys that
match no tag are ignored, and fields none of whose keys occur default to
`""`. -/
def unmarshalFields (kvs : List (String × String)) : CanvasData :=
  { keyPartners      := jsonGet kvs "keyPartners"
    keyActivities    := jsonGet kvs "keyActivities"
    keyResources     := jsonGet kvs "keyResources"
    valueProposition := jsonGet kvs "valueProposition"
    customerRel      := jsonGet kvs "customerRelationships"
    channels         := jsonGet kvs "channels"
    customerSegments := jsonGet kvs "customerSegments"
    costStructure    := jsonGet kvs "costStructure"
    revenueStreams   := jsonGet kvs "revenueStreams" }

/-- The nine JSON keys of `CanvasData`. -/
def canvasKeys : List String :=
  [ "keyPartners", "keyActivities", "keyResources", "valueProposition",
    "customerRelationships", "channels", "customerSegments",
    "costStructure", "revenueStreams" ]

example : unmarshalFields [("KeyPartners", "z")] =
    { emptyCanvas with keyPartners := "z" } := by decide

example : unmarshalFields [("keyPartners", "a"), ("KEYPARTNERS", "b")] =
    { emptyCanvas with keyPartners := "b" } := by decide

/-- Outcome of the `ShowFileSave` dialog callback in `saveCanvas`:
callback error, cancelled (nil writer), or a chosen file whose final
`Write` succeeds or fails.  (`json.MarshalIndent` on this struct cannot
fail, but a marshal error would return at the same point as a write
error.) -/
inductive SaveInput where
  | dialogErr
  | cancelled
  | chosen (writeOk : Bool)
deriving DecidableEq, Repr

/-- Mirrors the state effect of `saveCanvas`: on callback error or nil
writer return immediately; once a file is chosen, first push the current
snapshot onto the undo stack, then marshal and write (whose failure only
pops a dialog: the session state is already updated). -/
def Canvas.saveCanvas (c : Canvas) (inp : SaveInput) : Canvas :=
  match inp with
  | .dialogErr => c
  | .cancelled => c
  | .chosen _ => { c with undoStack := c.undoStack ++ [c.getCurrentData] }

/-- Outcome of the `ShowFileOpen` dialog callback in `loadCanvas`:
callback error, cancelled (nil reader), `io.ReadAll` failure, a document
`json.Unmarshal` rejects, or a parsed JSON object (its key/value list). -/
inductive LoadInput where
  | dialogErr
  | cancelled
  | readError
  | malformed
  | parsed (kvs : List (String × String))
deriving DecidableEq, Repr

/-- Mirrors the state effect of `loadCanvas`: on callback error or nil
reader return immediately; once a file is chosen, first push the current
snapshot onto the undo stack, then read and parse — returning on failure
with the live record untouched — and on success install the parsed
record via the nine `SetText` calls. -/
def Canvas.loadCanvas (c : Canvas) (inp : LoadInput) : Canvas :=
  match inp with
  | .dialogErr => c
  | .cancelled => c
  | .readError => { c with undoStack := c.undoStack ++ [c.getCurrentData] }
  | .malformed => { c with undoStack := c.undoStack ++ [c.getCurrentData] }
  | .parsed kvs =>
      { c with
        undoStack := c.undoStack ++ [c.getCurrentData]
        live := unmarshalFields kvs }

/-- Mirrors `saveCurrentVersion` at instant `now`: append one `Version`
with a fresh identifier, the current timestamp and the current data,
and record `lastSaved := now`. -/
def Canvas.saveCurrentVersion (c : Canvas) (now : Nat) : Canvas :=
  { c with
    versions := c.versions ++ [⟨c.nextId, now, c.getCurrentData, []⟩]
    nextId := c.nextId + 1
    lastSaved := now }

/-- Mirrors `restoreVersion`: push the current snapshot onto the undo
stack and install the stored record. -/
def Canvas.restoreVersion (c : Canvas) (v : Version) : Canvas :=
  { c with
    undoStack := c.undoStack ++ [c.getCurrentData]
    live := v.Data }

/-- The autosave interval: `5 * time.Minute`, in minutes. -/
def autosaveInterval : Nat := 5

/-- One firing of the ticker loop in `autoSaveRoutine` at instant `now`:
if autosave is enabled and at least the interval has elapsed since
`lastSaved` (`time.Since(c.lastSaved) >= 5*time.Minute`), take a
snapshot; otherwise do nothing. -/
def Canvas.autoSaveTick (c : Canvas) (now : Nat) : Canvas :=
  if c.autoSave ∧ autosaveInterval ≤ now - c.lastSaved then
    c.saveCurrentVersion now
  else c

/-- Every state-changing operation of the session, for whole-lifetime
invariants: user edits, undo/redo, save/load, a version snapshot (manual
or autosave tick), and restoring a stored version by index. -/
inductive Op where
  | edit (d : CanvasData)
  | undo
  | redo
  | save (inp : SaveInput)
  | load (inp : LoadInput)
  | snapshot (now : Nat)
  | autoTick (now : Nat)
  | restore (i : Nat)
deriving Repr

/-- Apply one operation. `restore i` is a no-op when `i` is out of
range (the history dialog only offers existing versions). -/
def Canvas.applyOp (c : Canvas) : Op → Canvas
  | .edit d => c.applyEdit d
  | .undo => c.undo
  | .redo => c.redo
  | .save inp => c.saveCanvas inp
  | .load inp => c.loadCanvas inp
  | .snapshot now => c.saveCurrentVersion now
  | .autoTick now => c.autoSaveTick now
  | .restore i =>
      match c.versions[i]? with
      | some v => c.restoreVersion v
      | none => c

/-- Apply a sequence of operations left to right. -/
def Canvas.applyOps (c : Canvas) (ops : List Op) : Canvas :=
  ops.foldl Canvas.applyOp c

/-- A fresh session as `main` builds it: empty texts, autosave on,
zero `lastSaved`, empty stacks and version list. -/
def initialCanvas : Canvas :=
  { live := emptyCanvas
    autoSave := true
    lastSaved := 0
    undoStack := []
    redoStack := []
    versions := []
    nextId := 0 }

/-! ## PDF layout geometry (`exportToPDF`)

The float64 arithmetic of `exportToPDF` is embedded over `ℚ` (exact
arithmetic over the literals 420, 297, 10, 0.6, 0.4, /5, /2). -/

/-- An axis-aligned rectangle: the `(x, y, w, h)` arguments of one
`drawSection` / `pdf.Rect` call. -/
structure Rect where
  x : ℚ
  y : ℚ
  w : ℚ
  h : ℚ
deriving DecidableEq, Repr

/-- Half-open point membership, so that abutting cells share no point. -/
def Rect.mem (r : Rect) (p : ℚ × ℚ) : Prop :=
  r.x ≤ p.1 ∧ p.1 < r.x + r.w ∧ r.y ≤ p.2 ∧ p.2 < r.y + r.h

instance (r : Rect) (p : ℚ × ℚ) : Decidable (r.mem p) := by
  unfold Rect.mem; infer_instance

/-- Rectangle area. -/
def Rect.area (r : Rect) : ℚ := r.w * r.h

/-- `pageWidth := 420.0` (A3 landscape). -/
def pageWidth : ℚ := 420

/-- `pageHeight := 297.0`. -/
def pageHeight : ℚ := 297

/-- `margin := 10.0`. -/
def pdfMargin : ℚ := 10

/-- `topHeight := (pageHeight - 2*margin) * 0.6`. -/
def topHeight : ℚ := (pageHeight - 2 * pdfMargin) * (6 / 10)

/-- `bottomHeight := (pageHeight - 2*margin) * 0.4`. -/
def bottomHeight : ℚ := (pageHeight - 2 * pdfMargin) * (4 / 10)

/-- `colWidth := (pageWidth - 2*margin) / 5`. -/
def colWidth : ℚ := (pageWidth - 2 * pdfMargin) / 5

/-- `drawSection(pdf, margin, y, colWidth, topHeight, "Key Partners", …)`
with `y = margin`. -/
def rKeyPartners : Rect := ⟨pdfMargin, pdfMargin, colWidth, topHeight⟩

/-- `drawSection(pdf, x, y, colWidth, topHeight/2, "Key Activities", …)`
with `x = margin + colWidth`, `y = margin`. -/
def rKeyActivities : Rect := ⟨pdfMargin + colWidth, pdfMargin, colWidth, topHeight / 2⟩

/-- `drawSection(pdf, x, y+topHeight/2, colWidth, topHeight/2, "Key Resources", …)`. -/
def rKeyResources : Rect :=
  ⟨pdfMargin + colWidth, pdfMargin + topHeight / 2, colWidth, topHeight / 2⟩

/-- `drawSection(pdf, x, y, colWidth, topHeight, "Value Proposition", …)`
after `x += colWidth` (so `x = margin + 2*colWidth`). -/
def rValueProposition : Rect := ⟨pdfMargin + 2 * colWidth, pdfMargin, colWidth, topHeight⟩

/-- `drawSection(pdf, x, y, colWidth, topHeight/2, "Customer Relationships", …)`
at `x = margin + 3*colWidth`. -/
def rCustomerRel : Rect := ⟨pdfMargin + 3 * colWidth, pdfMargin, colWidth, topHeight / 2⟩

/-- `drawSection(pdf, x, y+topHeight/2, colWidth, topHeight/2, "Channels", …)`. -/
def rChannels : Rect :=
  ⟨pdfMargin + 3 * colWidth, pdfMargin + topHeight / 2, colWidth, topHeight / 2⟩

/-- `drawSection(pdf, x, y, colWidth, topHeight, "Customer Segments", …)`
at `x = margin + 4*colWidth`. -/
def rCustomerSegments : Rect := ⟨pdfMargin + 4 * colWidth, pdfMargin, colWidth, topHeight⟩

/-- `drawSection(pdf, margin, y, (pageWidth-2*margin)/2, bottomHeight,
"Cost Structure", …)` with `y = margin + topHeight`. -/
def rCostStructure : Rect :=
  ⟨pdfMargin, pdfMargin + topHeight, (pageWidth - 2 * pdfMargin) / 2, bottomHeight⟩

/-- `drawSection(pdf, margin+(pageWidth-2*margin)/2, y, (pageWidth-2*margin)/2,
bottomHeight, "Revenue Streams", …)`. -/
def rRevenueStreams : Rect :=
  ⟨pdfMargin + (pageWidth - 2 * pdfMargin) / 2, pdfMargin + topHeight,
    (pageWidth - 2 * pdfMargin) / 2, bottomHeight⟩

/-- The nine `drawSection` calls of `exportToPDF`, in source order, with
their section titles and rectangles. -/
def exportLayout : List (String × Rect) :=
  [ ("Key Partners", rKeyPartners),
    ("Key Activities", rKeyActivities),
    ("Key Resources", rKeyResources),
    ("Value Proposition", rValueProposition),
    ("Customer Relationships", rCustomerRel),
    ("Channels", rChannels),
    ("Customer Segments", rCustomerSegments),
    ("Cost Structure", rCostStructure),
    ("Revenue Streams", rRevenueStreams) ]

/-- The nine rectangles of the export layout. -/
def exportRects : List Rect := exportLayout.map Prod.snd

/-- The content area: the page minus the margin on all four sides. -/
def contentRect : Rect :=
  ⟨pdfMargin, pdfMargin, pageWidth - 2 * pdfMargin, pageHeight - 2 * pdfMargin⟩

/-- Two rectangles overlap nowhere. -/
def RectDisjoint (a b : Rect) : Prop :=
  ∀ p : ℚ × ℚ, ¬(a.mem p ∧ b.mem p)

/-! ## Concrete inputs and invariants used by the claim statements -/

/-- A record whose value proposition is 50 copies of the two-byte
character `é` (so 50 characters, 100 UTF-8 bytes) and whose other four
checked sections each hold 50 ASCII bytes. -/
def accentCanvas : CanvasData :=
  { emptyCanvas with
    valueProposition := "éééééééééééééééééééééééééééééééééééééééééééééééééé"
    customerSegments := "aaaaaaaaaaaaaaaaaaaaaaaaaaaaaaaaaaaaaaaaaaaaaaaaaa"
    keyActivities    := "aaaaaaaaaaaaaaaaaaaaaaaaaaaaaaaaaaaaaaaaaaaaaaaaaa"
    costStructure    := "aaaaaaaaaaaaaaaaaaaaaaaaaaaaaaaaaaaaaaaaaaaaaaaaaa"
    revenueStreams   := "aaaaaaaaaaaaaaaaaaaaaaaaaaaaaaaaaaaaaaaaaaaaaaaaaa" }

/-- Identifier-supply invariant of a session: every stored identifier is
below the supply counter and the stored identifiers are distinct.  It
holds for a fresh session and is preserved by every operation. -/
def VersionsInv (c : Canvas) : Prop :=
  (∀ v ∈ c.versions, v.ID < c.nextId) ∧ (c.versions.map Version.ID).Nodup

instance (c : Canvas) : Decidable (VersionsInv c) := by
  unfold VersionsInv; infer_instance

/-- Fold a sequence of autosave ticker firings over the session. -/
def Canvas.autoTicks (c : Canvas) (ts : List Nat) : Canvas :=
  ts.foldl Canvas.autoSaveTick c

/-! ## Validator lemmas -/

theorem Validate_cons (r : ValidationRule) (rs : List ValidationRule) (c : CanvasData) :
    Validate (r :: rs) c =
      (if r.Check c then [] else [⟨r.Section, r.Message⟩]) ++ Validate rs c := by
  by_cases h : r.Check c <;> simp [Validate, h]

theorem ite_singleton_eq_nil (P : Prop) [Decidable P] (x : ValidationResult) :
    ((if P then [x] else []) = []) ↔ ¬P := by
  split_ifs with h <;> simp [h]

/-- C1 counterexample: a record whose value proposition is 50 accented
characters (50 characters, but 100 UTF-8 bytes, since Go's `len` counts
bytes) and whose other checked sections hold 50 ASCII bytes.  Its
character count is below the threshold 100, so the claim requires a
Value Proposition entry in the result, yet `Validate` returns no result
at all. -/
theorem validate_char_count_counterexample :
    accentCanvas.valueProposition.length < 100 ∧
    Validate NewBusinessValidator accentCanvas = [] := by
  constructor
  · decide
  · decide

/-- C1 amended: `Validate` returns exactly one ValidationResult per
failing rule, in rule-declaration order (Value Proposition, Customer
Segments, Key Activities, Cost Structure, Revenue Streams), where the
Value Proposition rule fails iff its text's UTF-8 byte count (Go `len`;
the character count for ASCII-only text) is < 100 and each of the other
four rules fails iff its section's UTF-8 byte count is < 50; sections
without a rule never appear, and an empty result means fully valid. -/
theorem validate_byte_thresholds (d : CanvasData) :
    Validate NewBusinessValidator d =
      ((if d.valueProposition.utf8ByteSize < 100 then
          [⟨"Value Proposition", "Consider adding more detail about your value proposition"⟩]
        else []) ++
       (if d.customerSegments.utf8ByteSize < 50 then
          [⟨"Customer Segments", "Customer segments need more specific details"⟩] else []) ++
       (if d.keyActivities.utf8ByteSize < 50 then
          [⟨"Key Activities", "Add more details about your key activities"⟩] else []) ++
       (if d.costStructure.utf8ByteSize < 50 then
          [⟨"Cost Structure", "Elaborate on your cost structure"⟩] else []) ++
       (if d.revenueStreams.utf8ByteSize < 50 then
          [⟨"Revenue Streams", "Provide more information about revenue streams"⟩] else [])) ∧
    (Validate NewBusinessValidator d = [] ↔
      (100 ≤ d.valueProposition.utf8ByteSize ∧ 50 ≤ d.customerSegments.utf8ByteSize ∧
       50 ≤ d.keyActivities.utf8ByteSize ∧ 50 ≤ d.costStructure.utf8ByteSize ∧
       50 ≤ d.revenueStreams.utf8ByteSize)) := by
  have hmain : Validate NewBusinessValidator d =
      ((if d.valueProposition.utf8ByteSize < 100 then
          [(⟨"Value Proposition",
             "Consider adding more detail about your value proposition"⟩ : ValidationResult)]
        else []) ++
       (if d.customerSegments.utf8ByteSize < 50 then
          [(⟨"Customer Segments",
             "Customer segments need more specific details"⟩ : ValidationResult)] else []) ++
       (if d.keyActivities.utf8ByteSize < 50 then
          [(⟨"Key Activities",
             "Add more details about your key activities"⟩ : ValidationResult)] else []) ++
       (if d.costStructure.utf8ByteSize < 50 then
          [(⟨"Cost Structure", "Elaborate on your cost structure"⟩ : ValidationResult)]
        else []) ++
       (if d.revenueStreams.utf8ByteSize < 50 then
          [(⟨"Revenue Streams",
             "Provide more information about revenue streams"⟩ : ValidationResult)] else [])) := by
    simp only [NewBusinessValidator, Validate_cons, Validate, ge_iff_le, decide_eq_true_eq]
    simp only [← Nat.not_le, ite_not]
    split_ifs <;> simp
  refine ⟨hmain, ?_⟩
  rw [hmain]
  simp [List.append_eq_nil, ite_singleton_eq_nil, Nat.not_lt]

/-! ## History manager lemmas -/

theorem Canvas.undo_of_empty (c : Canvas) (h : c.undoStack = []) : c.undo = c := by
  simp [Canvas.undo, h]

theorem Canvas.undo_of_concat (c : Canvas) (rest : List CanvasData) (top : CanvasData)
    (h : c.undoStack = rest ++ [top]) :
    c.undo = { c with live := top, undoStack := rest,
                      redoStack := c.redoStack ++ [c.live] } := by
  simp [Canvas.undo, h, Canvas.getCurrentData, List.getLast?_concat, List.dropLast_concat]

theorem Canvas.redo_of_empty (c : Canvas) (h : c.redoStack = []) : c.redo = c := by
  simp [Canvas.redo, h]

theorem Canvas.redo_of_concat (c : Canvas) (rest : List CanvasData) (top : CanvasData)
    (h : c.redoStack = rest ++ [top]) :
    c.redo = { c with live := top, redoStack := rest,
                      undoStack := c.undoStack ++ [c.live] } := by
  simp [Canvas.redo, h, Canvas.getCurrentData, List.getLast?_concat, List.dropLast_concat]

/-- C2: `undo()` on an empty undo stack changes nothing (live record and
both stacks included); on a non-empty undo stack it pushes the current
live snapshot onto the redo stack, pops exactly the top (tail) snapshot
of the undo stack, and installs that snapshot as the new live state.
`redo()` is symmetric, popping the redo stack and pushing the current
live snapshot onto the undo stack. -/
theorem undo_redo_stack_semantics (c : Canvas) :
    (c.undoStack = [] → c.undo = c) ∧
    (∀ rest top, c.undoStack = rest ++ [top] →
      c.undo = { c with live := top, undoStack := rest,
                        redoStack := c.redoStack ++ [c.live] }) ∧
    (c.redoStack = [] → c.redo = c) ∧
    (∀ rest top, c.redoStack = rest ++ [top] →
      c.redo = { c with live := top, redoStack := rest,
                        undoStack := c.undoStack ++ [c.live] }) :=
  ⟨c.undo_of_empty, fun _ _ h => c.undo_of_concat _ _ h,
   c.redo_of_empty, fun _ _ h => c.redo_of_concat _ _ h⟩

/-- Witness for C2 at a concrete session: an empty-stack session where
undo and redo are no-ops, and a session with one snapshot on each stack
where both move exactly that snapshot. -/
theorem undo_redo_stack_semantics_witness :
    (initialCanvas.undoStack = [] ∧ initialCanvas.undo = initialCanvas) ∧
    ({ initialCanvas with undoStack := [accentCanvas] }.undoStack = [] ++ [accentCanvas] ∧
      { initialCanvas with undoStack := [accentCanvas] }.undo =
        { initialCanvas with live := accentCanvas, undoStack := [],
                             redoStack := [initialCanvas.live] }) := by
  have h1 := undo_redo_stack_semantics initialCanvas
  have h2 := undo_redo_stack_semantics { initialCanvas with undoStack := [accentCanvas] }
  exact ⟨⟨rfl, h1.1 rfl⟩, ⟨rfl, h2.2.1 [] accentCanvas rfl⟩⟩

/-- C3: starting with live state `A` (= `s.live`), checkpointing `A`
onto the undo stack and changing the live state to `B`, `undo()` brings
the live state back to `A`, and `redo()` immediately afterwards brings
it back to `B`. -/
theorem checkpoint_undo_redo_roundtrip (s : Canvas) (B : CanvasData) :
    ({ s with undoStack := s.undoStack ++ [s.live], live := B }).undo.live = s.live ∧
    ({ s with undoStack := s.undoStack ++ [s.live], live := B }).undo.redo.live = B := by
  have h1 : ({ s with undoStack := s.undoStack ++ [s.live], live := B }).undo =
      { s with live := s.live, undoStack := s.undoStack,
               redoStack := s.redoStack ++ [B] } :=
    Canvas.undo_of_concat _ _ _ rfl
  have h2 := Canvas.redo_of_concat
    { s with live := s.live, undoStack := s.undoStack, redoStack := s.redoStack ++ [B] }
    s.redoStack B rfl
  rw [h1, h2]
  exact ⟨rfl, rfl⟩

/-- C4 counterexample: with one snapshot sitting on the redo stack, both
an explicit save (file chosen, write succeeds) and an explicit load
(file chosen and parsed) leave the redo stack exactly as it was — the
save and load actions do not clear the redo stack. -/
theorem save_load_do_not_clear_redo :
    (({ initialCanvas with redoStack := [accentCanvas] }).saveCanvas
        (SaveInput.chosen true)).redoStack = [accentCanvas] ∧
    (({ initialCanvas with redoStack := [accentCanvas] }).loadCanvas
        (LoadInput.parsed [])).redoStack = [accentCanvas] :=
  ⟨rfl, rfl⟩

/-- C4 amended: fresh edits to the live record never clear the redo
stack, and neither do the explicit save and load actions — they push the
current snapshot onto the undo stack and leave the redo stack unchanged.
No operation clears the redo stack. -/
theorem redo_stack_never_cleared (c : Canvas) (d : CanvasData)
    (si : SaveInput) (li : LoadInput) :
    (c.applyEdit d).redoStack = c.redoStack ∧
    (c.saveCanvas si).redoStack = c.redoStack ∧
    (c.loadCanvas li).redoStack = c.redoStack := by
  refine ⟨rfl, ?_, ?_⟩
  · cases si <;> rfl
  · cases li <;> rfl

/-- C5: when the read fails or the document is malformed (JSON parse
error), the load is aborted and each of the nine fields of the live
record holds exactly the value it held before the load attempt. -/
theorem load_failure_preserves_live (c : Canvas) :
    ((c.loadCanvas LoadInput.readError).live.keyPartners = c.live.keyPartners ∧
     (c.loadCanvas LoadInput.readError).live.keyActivities = c.live.keyActivities ∧
     (c.loadCanvas LoadInput.readError).live.keyResources = c.live.keyResources ∧
     (c.loadCanvas LoadInput.readError).live.valueProposition = c.live.valueProposition ∧
     (c.loadCanvas LoadInput.readError).live.customerRel = c.live.customerRel ∧
     (c.loadCanvas LoadInput.readError).live.channels = c.live.channels ∧
     (c.loadCanvas LoadInput.readError).live.customerSegments = c.live.customerSegments ∧
     (c.loadCanvas LoadInput.readError).live.costStructure = c.live.costStructure ∧
     (c.loadCanvas LoadInput.readError).live.revenueStreams = c.live.revenueStreams) ∧
    ((c.loadCanvas LoadInput.malformed).live = c.live) :=
  ⟨⟨rfl, rfl, rfl, rfl, rfl, rfl, rfl, rfl, rfl⟩, rfl⟩

/-- C10: once a file has been chosen, save and load push the current
live snapshot onto the undo stack before any fallible step, so a save
whose write fails, a load whose read fails, and a load whose parse fails
all grow the undo stack by exactly one entry equal to the live record,
which itself is unchanged; a successful load pushes the same entry; and
cancelling either file dialog (or a dialog callback error) leaves the
whole session — both stacks included — unchanged. -/
theorem checkpoint_precedes_fallible_steps (c : Canvas) (b : Bool)
    (kvs : List (String × String)) :
    ((c.saveCanvas (SaveInput.chosen b)).undoStack = c.undoStack ++ [c.live] ∧
     (c.saveCanvas (SaveInput.chosen b)).live = c.live ∧
     (c.saveCanvas (SaveInput.chosen b)).redoStack = c.redoStack) ∧
    ((c.loadCanvas LoadInput.readError).undoStack = c.undoStack ++ [c.live] ∧
     (c.loadCanvas LoadInput.readError).live = c.live) ∧
    ((c.loadCanvas LoadInput.malformed).undoStack = c.undoStack ++ [c.live] ∧
     (c.loadCanvas LoadInput.malformed).live = c.live) ∧
    ((c.loadCanvas (LoadInput.parsed kvs)).undoStack = c.undoStack ++ [c.live]) ∧
    (c.saveCanvas SaveInput.cancelled = c ∧ c.loadCanvas LoadInput.cancelled = c ∧
     c.saveCanvas SaveInput.dialogErr = c ∧ c.loadCanvas LoadInput.dialogErr = c) := by
  exact ⟨⟨rfl, rfl, rfl⟩, ⟨rfl, rfl⟩, ⟨rfl, rfl⟩, rfl, ⟨rfl, rfl, rfl, rfl⟩⟩

/-! ## Persistence codec lemmas -/

theorem jsonGet_foldl_no_key (extra : List (String × String)) (k : String)
    (h : ∀ p ∈ extra, foldName p.1 ≠ foldName k) (acc : String) :
    extra.foldl (fun acc p => if foldName p.1 = foldName k then p.2 else acc) acc = acc := by
  induction extra generalizing acc with
  | nil => rfl
  | cons p ps ih =>
      simp only [List.foldl_cons]
      rw [if_neg (h p (List.mem_cons_self _ _))]
      exact ih (fun q hq => h q (List.mem_cons_of_mem _ hq)) acc

theorem jsonGet_append_unknown (kvs extra : List (String × String)) (k : String)
    (h : ∀ p ∈ extra, foldName p.1 ≠ foldName k) :
    jsonGet (kvs ++ extra) k = jsonGet kvs k := by
  unfold jsonGet
  rw [List.foldl_append]
  exact jsonGet_foldl_no_key extra k h _

theorem unmarshal_append_unknown (kvs extra : List (String × String))
    (h : ∀ p ∈ extra, ∀ t ∈ canvasKeys, foldName p.1 ≠ foldName t) :
    unmarshalFields (kvs ++ extra) = unmarshalFields kvs := by
  unfold unmarshalFields
  rw [jsonGet_append_unknown kvs extra _
        (fun p hp => h p hp "keyPartners" (by simp [canvasKeys])),
      jsonGet_append_unknown kvs extra _
        (fun p hp => h p hp "keyActivities" (by simp [canvasKeys])),
      jsonGet_append_unknown kvs extra _
        (fun p hp => h p hp "keyResources" (by simp [canvasKeys])),
      jsonGet_append_unknown kvs extra _
        (fun p hp => h p hp "valueProposition" (by simp [canvasKeys])),
      jsonGet_append_unknown kvs extra _
        (fun p hp => h p hp "customerRelationships" (by simp [canvasKeys])),
      jsonGet_append_unknown kvs extra _
        (fun p hp => h p hp "channels" (by simp [canvasKeys])),
      jsonGet_append_unknown kvs extra _
        (fun p hp => h p hp "customerSegments" (by simp [canvasKeys])),
      jsonGet_append_unknown kvs extra _
        (fun p hp => h p hp "costStructure" (by simp [canvasKeys])),
      jsonGet_append_unknown kvs extra _
        (fun p hp => h p hp "revenueStreams" (by simp [canvasKeys]))]

theorem unmarshal_marshal (d : CanvasData) :
    unmarshalFields (marshalFields d) = d := rfl

/-- C6: serializing a record as save does and parsing it back as load
does restores all nine fields exactly, for any field values (empty
strings, embedded whitespace and newlines included, since the codec is
string-transparent); on parse, unknown keys — keys matching none of the
nine tags under `json.Unmarshal`'s case-insensitive name folding — are
ignored (appending any such pairs changes nothing), and missing keys
default to the empty string (a document with no matching key at all
parses to the all-empty record). -/
theorem save_load_roundtrip (d : CanvasData) (extra : List (String × String))
    (hextra : ∀ p ∈ extra, ∀ t ∈ canvasKeys, foldName p.1 ≠ foldName t) :
    unmarshalFields (marshalFields d) = d ∧
    unmarshalFields (marshalFields d ++ extra) = d ∧
    unmarshalFields extra = emptyCanvas := by
  refine ⟨unmarshal_marshal d, ?_, ?_⟩
  · rw [unmarshal_append_unknown _ _ hextra]
    exact unmarshal_marshal d
  · have : unmarshalFields (([] : List (String × String)) ++ extra) = unmarshalFields [] :=
      unmarshal_append_unknown [] extra hextra
    simpa using this

/-! ## Version store lemmas -/

theorem versions_applyOp (c : Canvas) (op : Op) :
    ((c.applyOp op).versions = c.versions ∧ (c.applyOp op).nextId = c.nextId) ∨
    (∃ now, (c.applyOp op).versions = c.versions ++ [⟨c.nextId, now, c.live, []⟩] ∧
            (c.applyOp op).nextId = c.nextId + 1) := by
  cases op with
  | edit d => exact Or.inl ⟨rfl, rfl⟩
  | undo =>
      cases h : c.undoStack.getLast? <;>
        simp [Canvas.applyOp, Canvas.undo, h]
  | redo =>
      cases h : c.redoStack.getLast? <;>
        simp [Canvas.applyOp, Canvas.redo, h]
  | save inp => cases inp <;> exact Or.inl ⟨rfl, rfl⟩
  | load inp => cases inp <;> exact Or.inl ⟨rfl, rfl⟩
  | snapshot now => exact Or.inr ⟨now, rfl, rfl⟩
  | autoTick now =>
      by_cases h : c.autoSave = true ∧ autosaveInterval ≤ now - c.lastSaved
      · exact Or.inr ⟨now, by simp [Canvas.applyOp, Canvas.autoSaveTick, if_pos h,
          Canvas.saveCurrentVersion, Canvas.getCurrentData]⟩
      · exact Or.inl (by simp [Canvas.applyOp, Canvas.autoSaveTick, if_neg h])
  | restore i =>
      cases h : c.versions[i]? <;>
        simp [Canvas.applyOp, Canvas.restoreVersion, h]

theorem inv_applyOp (c : Canvas) (op : Op) (h : VersionsInv c) :
    VersionsInv (c.applyOp op) := by
  rcases versions_applyOp c op with ⟨hv, hn⟩ | ⟨now, hv, hn⟩
  · rw [VersionsInv, hv, hn]; exact h
  · constructor
    · intro v hv'
      rw [hv] at hv'
      rw [hn]
      rcases List.mem_append.mp hv' with h1 | h1
      · exact Nat.lt_succ_of_lt (h.1 v h1)
      · simp at h1
        rw [h1]
        exact Nat.lt_succ_self _
    · rw [hv]
      rw [List.map_append]
      rw [List.nodup_append]
      refine ⟨h.2, List.nodup_singleton _, ?_⟩
      intro a ha hb
      simp at hb
      rcases List.mem_map.mp ha with ⟨v, hv', rfl⟩
      exact absurd (h.1 v hv') (by rw [hb]; exact Nat.lt_irrefl _)

theorem applyOps_cons (c : Canvas) (op : Op) (ops : List Op) :
    c.applyOps (op :: ops) = (c.applyOp op).applyOps ops := rfl

theorem inv_applyOps (c : Canvas) (ops : List Op) (h : VersionsInv c) :
    VersionsInv (c.applyOps ops) := by
  induction ops generalizing c with
  | nil => exact h
  | cons op ops ih => exact ih _ (inv_applyOp c op h)

theorem versions_applyOps (c : Canvas) (ops : List Op) :
    ∃ t, (c.applyOps ops).versions = c.versions ++ t := by
  induction ops generalizing c with
  | nil => exact ⟨[], by simp [Canvas.applyOps]⟩
  | cons op ops ih =>
      rw [applyOps_cons]
      rcases ih (c.applyOp op) with ⟨t, ht⟩
      rcases versions_applyOp c op with ⟨hv, -⟩ | ⟨now, hv, -⟩
      · exact ⟨t, by rw [ht, hv]⟩
      · exact ⟨[⟨c.nextId, now, c.live, []⟩] ++ t, by rw [ht, hv, List.append_assoc]⟩

/-- C8: `saveCurrentVersion` at instant `now` appends exactly one
`Version` carrying a fresh identifier (one not occurring in the store),
the current timestamp and the current canvas record; across every
sequence of session operations the version store is append-only (the
prior store is a prefix of the new one, so entries are never mutated or
removed) and its identifiers remain pairwise distinct — in particular
across any number of sequential snapshots, 10,000 included. -/
theorem version_store_append_only (c : Canvas) (now : Nat) (ops : List Op)
    (h : VersionsInv c) :
    ((c.saveCurrentVersion now).versions =
        c.versions ++ [⟨c.nextId, now, c.live, []⟩]) ∧
    ((c.saveCurrentVersion now).lastSaved = now) ∧
    (c.nextId ∉ c.versions.map Version.ID) ∧
    (∃ t, (c.applyOps ops).versions = c.versions ++ t) ∧
    ((c.applyOps ops).versions.map Version.ID).Nodup := by
  refine ⟨rfl, rfl, ?_, versions_applyOps c ops, (inv_applyOps c ops h).2⟩
  intro hmem
  rcases List.mem_map.mp hmem with ⟨v, hv, hid⟩
  exact absurd (h.1 v hv) (by rw [hid]; exact Nat.lt_irrefl _)

/-- Witness for C8: from a fresh session, 10,000 sequential snapshots
produce pairwise-distinct identifiers. -/
theorem version_store_append_only_witness :
    VersionsInv initialCanvas ∧
    ((initialCanvas.applyOps (List.replicate 10000 (Op.snapshot 0))).versions.map
        Version.ID).Nodup := by
  have h := version_store_append_only initialCanvas 0
    (List.replicate 10000 (Op.snapshot 0)) (by decide)
  exact ⟨by decide, h.2.2.2.2⟩

/-! ## Autosave scheduler lemmas -/

theorem autoSaveTick_not_fire (c : Canvas) (t : Nat)
    (h : ¬(c.autoSave = true ∧ autosaveInterval ≤ t - c.lastSaved)) :
    c.autoSaveTick t = c := by
  simp [Canvas.autoSaveTick, if_neg h]

theorem autoTicks_no_fire (c : Canvas) (ts : List Nat)
    (h : ∀ u ∈ ts, c.autoSaveTick u = c) : c.autoTicks ts = c := by
  induction ts with
  | nil => rfl
  | cons u us ih =>
      have step : c.autoTicks (u :: us) = c.autoTicks us := by
        simp only [Canvas.autoTicks, List.foldl_cons, h u (List.mem_cons_self _ _)]
      rw [step]
      exact ih (fun v hv => h v (List.mem_cons_of_mem _ hv))

/-- C9: a firing of the recurring autosave timer at instant `t` records
a snapshot iff autosave is enabled and at least the fixed interval
(5 minutes) has elapsed since the last recorded save, and otherwise
leaves the session untouched; consequently, once a snapshot is recorded
at `t`, every further firing within less than one interval of `t` —
however many and however fast — records nothing. -/
theorem autosave_at_most_once_per_interval (c : Canvas) (t : Nat) :
    ((c.autoSaveTick t).versions.length = c.versions.length + 1 ↔
      (c.autoSave = true ∧ autosaveInterval ≤ t - c.lastSaved)) ∧
    (¬(c.autoSave = true ∧ autosaveInterval ≤ t - c.lastSaved) → c.autoSaveTick t = c) ∧
    (∀ ts : List Nat, (∀ u ∈ ts, u < t + autosaveInterval) →
      c.autoSave = true → autosaveInterval ≤ t - c.lastSaved →
      (c.autoSaveTick t).autoTicks ts = c.autoSaveTick t) := by
  refine ⟨?_, autoSaveTick_not_fire c t, ?_⟩
  · by_cases h : c.autoSave = true ∧ autosaveInterval ≤ t - c.lastSaved
    · simp [Canvas.autoSaveTick, if_pos h, Canvas.saveCurrentVersion, h]
    · simp [autoSaveTick_not_fire c t h, h]
  · intro ts hts hA hI
    have hfire : c.autoSaveTick t = c.saveCurrentVersion t := by
      simp [Canvas.autoSaveTick, if_pos (And.intro hA hI)]
    rw [hfire]
    apply autoTicks_no_fire
    intro u hu
    apply autoSaveTick_not_fire
    rintro ⟨-, hle⟩
    have h1 : u < t + autosaveInterval := hts u hu
    have h2 : (c.saveCurrentVersion t).lastSaved = t := rfl
    rw [h2] at hle
    simp only [autosaveInterval] at hle h1
    omega

/-- Witness for C9: a fresh session (autosave on, `lastSaved = 0`) fires
at the tick at instant 10, and faster ticks at 11, 12 and 14 record
nothing more. -/
theorem autosave_at_most_once_per_interval_witness :
    (∀ u ∈ [11, 12, 14], u < 10 + autosaveInterval) ∧
    initialCanvas.autoSave = true ∧
    autosaveInterval ≤ 10 - initialCanvas.lastSaved ∧
    (initialCanvas.autoSaveTick 10).versions.length = initialCanvas.versions.length + 1 ∧
    (initialCanvas.autoSaveTick 10).autoTicks [11, 12, 14] =
      initialCanvas.autoSaveTick 10 := by
  have h := autosave_at_most_once_per_interval initialCanvas 10
  refine ⟨by decide, rfl, by decide, ?_, ?_⟩
  · exact h.1.mpr ⟨rfl, by decide⟩
  · exact h.2.2 [11, 12, 14] (by decide) rfl (by decide)

/-- Witness for C6: a record with empty fields, spaces and newlines
round-trips through the codec, also in the presence of an unknown key
(one matching no tag, even case-insensitively). -/
theorem save_load_roundtrip_witness :
    (∀ p ∈ [("Comments", "ignored\nkey")], ∀ t ∈ canvasKeys,
      foldName p.1 ≠ foldName t) ∧
    (unmarshalFields (marshalFields
        { emptyCanvas with keyPartners := "a b\nc\t", revenueStreams := " " }
        ++ [("Comments", "ignored\nkey")]) =
      { emptyCanvas with keyPartners := "a b\nc\t", revenueStreams := " " }) ∧
    unmarshalFields [("Comments", "ignored\nkey")] = emptyCanvas := by
  have h := save_load_roundtrip
    { emptyCanvas with keyPartners := "a b\nc\t", revenueStreams := " " }
    [("Comments", "ignored\nkey")] (by decide)
  exact ⟨by decide, h.2.1, h.2.2⟩

/-! ## Layout geometry lemmas -/

theorem RectDisjoint.sep_x_le {a b : Rect} (h : a.x + a.w ≤ b.x) : RectDisjoint a b := by
  rintro ⟨px, py⟩ ⟨⟨ha1, ha2, ha3, ha4⟩, hb1, hb2, hb3, hb4⟩
  linarith

theorem RectDisjoint.sep_x_ge {a b : Rect} (h : b.x + b.w ≤ a.x) : RectDisjoint a b := by
  rintro ⟨px, py⟩ ⟨⟨ha1, ha2, ha3, ha4⟩, hb1, hb2, hb3, hb4⟩
  linarith

theorem RectDisjoint.sep_y_le {a b : Rect} (h : a.y + a.h ≤ b.y) : RectDisjoint a b := by
  rintro ⟨px, py⟩ ⟨⟨ha1, ha2, ha3, ha4⟩, hb1, hb2, hb3, hb4⟩
  linarith

theorem RectDisjoint.sep_y_ge {a b : Rect} (h : b.y + b.h ≤ a.y) : RectDisjoint a b := by
  rintro ⟨px, py⟩ ⟨⟨ha1, ha2, ha3, ha4⟩, hb1, hb2, hb3, hb4⟩
  linarith

theorem layout_pairwise_disjoint : exportRects.Pairwise RectDisjoint := by
  simp only [exportRects, exportLayout, List.map_cons, List.map_nil]
  refine List.Pairwise.cons ?_ (List.Pairwise.cons ?_ (List.Pairwise.cons ?_
    (List.Pairwise.cons ?_ (List.Pairwise.cons ?_ (List.Pairwise.cons ?_
    (List.Pairwise.cons ?_ (List.Pairwise.cons ?_ (List.Pairwise.cons ?_
      List.Pairwise.nil)))))))) <;>
    intro r hr <;> fin_cases hr <;>
    first
      | (apply RectDisjoint.sep_x_le
         norm_num [rKeyPartners, rKeyActivities, rKeyResources, rValueProposition,
           rCustomerRel, rChannels, rCustomerSegments, rCostStructure, rRevenueStreams,
           pdfMargin, pageWidth, pageHeight, topHeight, bottomHeight, colWidth]
         done)
      | (apply RectDisjoint.sep_x_ge
         norm_num [rKeyPartners, rKeyActivities, rKeyResources, rValueProposition,
           rCustomerRel, rChannels, rCustomerSegments, rCostStructure, rRevenueStreams,
           pdfMargin, pageWidth, pageHeight, topHeight, bottomHeight, colWidth]
         done)
      | (apply RectDisjoint.sep_y_le
         norm_num [rKeyPartners, rKeyActivities, rKeyResources, rValueProposition,
           rCustomerRel, rChannels, rCustomerSegments, rCostStructure, rRevenueStreams,
           pdfMargin, pageWidth, pageHeight, topHeight, bottomHeight, colWidth]
         done)
      | (apply RectDisjoint.sep_y_ge
         norm_num [rKeyPartners, rKeyActivities, rKeyResources, rValueProposition,
           rCustomerRel, rChannels, rCustomerSegments, rCostStructure, rRevenueStreams,
           pdfMargin, pageWidth, pageHeight, topHeight, bottomHeight, colWidth]
         done)

theorem layout_covers (p : ℚ × ℚ) (hp : contentRect.mem p) :
    ∃ r ∈ exportRects, r.mem p := by
  obtain ⟨px, py⟩ := p
  obtain ⟨h1, h2, h3, h4⟩ := hp
  simp only [contentRect] at h1 h2 h3 h4
  norm_num [pdfMargin, pageWidth, pageHeight] at h1 h2 h3 h4
  by_cases hband : py < 881 / 5
  · by_cases hx1 : px < 90
    · refine ⟨rKeyPartners, by simp [exportRects, exportLayout], ?_⟩
      simp only [Rect.mem, rKeyPartners, pdfMargin, colWidth, topHeight,
        pageWidth, pageHeight]
      exact ⟨by linarith, by linarith, by linarith, by linarith⟩
    · by_cases hx2 : px < 170
      · by_cases hy2 : py < 931 / 10
        · refine ⟨rKeyActivities, by simp [exportRects, exportLayout], ?_⟩
          simp only [Rect.mem, rKeyActivities, pdfMargin, colWidth, topHeight,
            pageWidth, pageHeight]
          exact ⟨by linarith, by linarith, by linarith, by linarith⟩
        · refine ⟨rKeyResources, by simp [exportRects, exportLayout], ?_⟩
          simp only [Rect.mem, rKeyResources, pdfMargin, colWidth, topHeight,
            pageWidth, pageHeight]
          exact ⟨by linarith, by linarith, by linarith, by linarith⟩
      · by_cases hx3 : px < 250
        · refine ⟨rValueProposition, by simp [exportRects, exportLayout], ?_⟩
          simp only [Rect.mem, rValueProposition, pdfMargin, colWidth, topHeight,
            pageWidth, pageHeight]
          exact ⟨by linarith, by linarith, by linarith, by linarith⟩
        · by_cases hx4 : px < 330
          · by_cases hy2 : py < 931 / 10
            · refine ⟨rCustomerRel, by simp [exportRects, exportLayout], ?_⟩
              simp only [Rect.mem, rCustomerRel, pdfMargin, colWidth, topHeight,
                pageWidth, pageHeight]
              exact ⟨by linarith, by linarith, by linarith, by linarith⟩
            · refine ⟨rChannels, by simp [exportRects, exportLayout], ?_⟩
              simp only [Rect.mem, rChannels, pdfMargin, colWidth, topHeight,
                pageWidth, pageHeight]
              exact ⟨by linarith, by linarith, by linarith, by linarith⟩
          · refine ⟨rCustomerSegments, by simp [exportRects, exportLayout], ?_⟩
            simp only [Rect.mem, rCustomerSegments, pdfMargin, colWidth, topHeight,
              pageWidth, pageHeight]
            exact ⟨by linarith, by linarith, by linarith, by linarith⟩
  · by_cases hx5 : px < 210
    · refine ⟨rCostStructure, by simp [exportRects, exportLayout], ?_⟩
      simp only [Rect.mem, rCostStructure, pdfMargin, topHeight, bottomHeight,
        pageWidth, pageHeight]
      exact ⟨by linarith, by linarith, by linarith, by linarith⟩
    · refine ⟨rRevenueStreams, by simp [exportRects, exportLayout], ?_⟩
      simp only [Rect.mem, rRevenueStreams, pdfMargin, topHeight, bottomHeight,
        pageWidth, pageHeight]
      exact ⟨by linarith, by linarith, by linarith, by linarith⟩

theorem layout_in_content (p : ℚ × ℚ) (r : Rect) (hr : r ∈ exportRects)
    (h : r.mem p) : contentRect.mem p := by
  obtain ⟨px, py⟩ := p
  simp only [exportRects, exportLayout, List.map_cons, List.map_nil] at hr
  fin_cases hr <;>
    (obtain ⟨h1, h2, h3, h4⟩ := h
     simp only [Rect.mem, contentRect, rKeyPartners, rKeyActivities, rKeyResources,
       rValueProposition, rCustomerRel, rChannels, rCustomerSegments, rCostStructure,
       rRevenueStreams, pdfMargin, pageWidth, pageHeight, topHeight, bottomHeight,
       colWidth] at h1 h2 h3 h4 ⊢
     exact ⟨by linarith, by linarith, by linarith, by linarith⟩)

theorem layout_area_sum :
    (exportRects.map Rect.area).sum =
      (pageWidth - 2 * pdfMargin) * (pageHeight - 2 * pdfMargin) := by
  simp only [exportRects, exportLayout, List.map_cons, List.map_nil, Rect.area]
  norm_num [rKeyPartners, rKeyActivities, rKeyResources, rValueProposition,
    rCustomerRel, rChannels, rCustomerSegments, rCostStructure, rRevenueStreams,
    pdfMargin, pageWidth, pageHeight, topHeight, bottomHeight, colWidth]

/-- C7: for page width 420, page height 297 and margin 10, the export
layout consists of exactly nine rectangles that tile the content area
(the page minus the margins) with no gaps (every content point lies in
some rectangle, and every rectangle lies inside the content area) and no
overlaps (the nine rectangles are pairwise disjoint), and the sum of the
nine rectangle areas equals content width × content height. -/
theorem export_layout_tiles_content :
    pageWidth = 420 ∧ pageHeight = 297 ∧ pdfMargin = 10 ∧
    exportRects.length = 9 ∧
    (∀ p : ℚ × ℚ, contentRect.mem p ↔ ∃ r ∈ exportRects, r.mem p) ∧
    exportRects.Pairwise RectDisjoint ∧
    (exportRects.map Rect.area).sum =
      (pageWidth - 2 * pdfMargin) * (pageHeight - 2 * pdfMargin) := by
  refine ⟨rfl, rfl, rfl, rfl, ?_, layout_pairwise_disjoint, layout_area_sum⟩
  intro p
  constructor
  · exact layout_covers p
  · rintro ⟨r, hr, hm⟩
    exact layout_in_content p r hr hm
